import Mathlib

/-!
Verification development for the med-melanin backend (Express + Mongoose,
TypeScript). The definitions below are a shallow embedding of the
repository's services, controllers, models and route wiring:

* `src/services/validation.service.ts` — input sanitisation/validation;
* `src/services/auth.service.ts` — register/login/changePassword;
* `src/services/user.service.ts` — user reads/updates (`select('-password')`);
* `src/models/user.model.ts` — schema setters (trim/lowercase), pre-save
  bcrypt hashing, `calculateRecoveryDay`;
* `src/middleware/auth.middleware.ts` — `authenticateToken`;
* `src/services/brochure-progress.service.ts` and
  `src/models/brochure-progress.model.ts` — keyed upsert progress store;
* `src/services/symptom-entry.service.ts`,
  `src/controllers/symptom-entry.controller.ts` and
  `src/routes/symptom-entry.routes.ts` — diary CRUD and route order;
* `src/controllers/auth.controller.ts` — signup/signin/surgery-date.

Stores (MongoDB collections) are lists of records; the wall clock is an
explicit `nowMs : Int` argument (milliseconds since the epoch, as in JS
`Date.getTime()`); external libraries (bcryptjs, jsonwebtoken) are given
small deterministic models that preserve the properties the code relies
on (hash injectivity, signature/expiry checking).
-/

namespace MedMelanin

/-! ## JavaScript string primitives

`String.prototype.trim` and `String.prototype.toLowerCase` restricted to
the ASCII range (all literals in the repository are ASCII). `trimChars`
removes leading and trailing whitespace, like JS `trim`. -/

/-- Character list of a JS `trim`: drop whitespace from the front, then
from the back (`List.rdropWhile` is reverse-dropWhile). -/
def trimChars (l : List Char) : List Char :=
  List.rdropWhile Char.isWhitespace (List.dropWhile Char.isWhitespace l)

/-- Model of JS `String.prototype.trim`. -/
def jsTrim (s : String) : String :=
  ⟨trimChars s.data⟩

/-- Model of JS `String.prototype.toLowerCase` (ASCII range). -/
def jsToLower (s : String) : String :=
  ⟨s.data.map Char.toLower⟩

/-- `data.email?.trim().toLowerCase()` — the sanitisation applied to
emails by `validation.service.ts`, and also the `trim: true` +
`lowercase: true` setters of the user schema's email path. -/
def normalizeEmail (s : String) : String :=
  jsToLower (jsTrim s)

/-- `pat` is a prefix of `l` (character lists). -/
def hasPre : List Char → List Char → Bool
  | [], _ => true
  | _ :: _, [] => false
  | a :: as, b :: bs => a == b && hasPre as bs

/-- `pat` occurs somewhere inside `l` (character lists). -/
def hasSub (pat : List Char) : List Char → Bool
  | [] => hasPre pat []
  | c :: rest => hasPre pat (c :: rest) || hasSub pat rest

/-- Model of JS `String.prototype.includes`. -/
def strIncludes (s pat : String) : Bool :=
  hasSub pat.data s.data

/-! ## bcryptjs model

`bcrypt.hashSync(p, 10)` produces a modular-crypt string
`$2a$10$<salt+digest>`. The model keeps the determinate properties the
code relies on — the hash is never the plaintext, and
`bcrypt.compareSync(c, h)` succeeds exactly when `h` is the hash of `c` —
while abstracting the random salt into a fixed prefix. -/

/-- Model of `bcrypt.hashSync(password, 10)` (user schema pre-save hook). -/
def bcryptHash (password : String) : String :=
  "$2a$10$" ++ password

/-- Model of `bcrypt.compareSync(candidate, stored)`
(`userSchema.methods.comparePassword`). -/
def bcryptCompare (candidate stored : String) : Bool :=
  stored == bcryptHash candidate

/-! ## jsonwebtoken model

`jwt.sign(payload, secret, { expiresIn: '7d' })` and
`jwt.verify(token, secret)`. A token carries its payload, the secret it
was signed with, and its expiry instant; verification checks the secret
and the expiry against the current time. -/

/-- The JWT payload minted by `auth.service.ts` (`{ userId, email }`). -/
structure JwtClaims where
  userId : Nat
  email : String
  deriving DecidableEq, Repr

/-- A signed token (model of the opaque JWT string). -/
structure JwtToken where
  claims : JwtClaims
  secret : String
  expMs : Int
  deriving DecidableEq, Repr

/-- Seven days in milliseconds (the `expiresIn: '7d'` validity window). -/
def sevenDaysMs : Int := 604800000

/-- Model of `jwt.sign(payload, JWT_SECRET, { expiresIn: '7d' })`. -/
def jwtSign (claims : JwtClaims) (secret : String) (nowMs : Int) : JwtToken :=
  ⟨claims, secret, nowMs + sevenDaysMs⟩

/-- Verification failures of `jwt.verify`. -/
inductive JwtError where
  | invalidToken
  | expired
  deriving DecidableEq, Repr

/-- Model of `jwt.verify(token, secret)` at wall-clock `nowMs`. -/
def jwtVerify (t : JwtToken) (secret : String) (nowMs : Int) : Except JwtError JwtClaims :=
  if t.secret ≠ secret then .error .invalidToken
  else if t.expMs ≤ nowMs then .error .expired
  else .ok t.claims

/-! ## User model (`src/models/user.model.ts`)

A stored user document. `password` holds whatever the document carries in
the database — after the pre-save hook it is always the bcrypt hash.
`surgeryDate` is the `Date` field (ms since epoch) defaulting to null. -/

structure StoredUser where
  uid : Nat
  firstName : String
  lastName : String
  email : String
  password : String
  surgeryDate : Option Int
  isActive : Bool
  deriving DecidableEq, Repr

/-- A user as returned by queries with `select('-password')`: the
password path is simply absent from the result type. -/
structure SafeUser where
  uid : Nat
  firstName : String
  lastName : String
  email : String
  surgeryDate : Option Int
  isActive : Bool
  deriving DecidableEq, Repr

/-- Projection performed by `select('-password')`. -/
def toSafeUser (u : StoredUser) : SafeUser :=
  ⟨u.uid, u.firstName, u.lastName, u.email, u.surgeryDate, u.isActive⟩

/-! ### The user schema's email `match` pattern

`/^\w+([.-]?\w+)*@\w+([.-]?\w+)*(\.\w{2,3})+$/` as an executable matcher:
a word sequence (word chars optionally separated by single `.` or `-`),
an `@`, another word sequence, and one or more `.`+2-3-word-char groups. -/

/-- `\w` — `[A-Za-z0-9_]`. -/
def isWordChar (c : Char) : Bool :=
  c.isAlphanum || c == '_'

/-- Continuation of `\w+([.-]?\w+)*` after its first word character:
word characters, with any `.` or `-` immediately followed by a word
character. -/
def wordSeqAux : List Char → Bool
  | [] => true
  | c :: rest =>
    if isWordChar c then wordSeqAux rest
    else if c == '.' || c == '-' then
      match rest with
      | [] => false
      | r :: _ => isWordChar r && wordSeqAux rest
    else false

/-- Full match of `\w+([.-]?\w+)*`. -/
def wordSeq : List Char → Bool
  | [] => false
  | c :: rest => isWordChar c && wordSeqAux rest

/-- Fuelled matcher for `(\.\w{2,3})+`: a dot, a run of exactly two or
three word characters, repeated; the fuel only bounds the recursion
depth (each group consumes at least three characters). -/
def tldPlusAux : Nat → List Char → Bool
  | _, [] => false
  | 0, _ :: _ => false
  | fuel + 1, c :: rest =>
    if c == '.' then
      let run := rest.takeWhile isWordChar
      (run.length == 2 || run.length == 3) &&
        (let rem := rest.drop run.length
         rem.isEmpty || tldPlusAux fuel rem)
    else false

/-- Full match of `(\.\w{2,3})+`. -/
def tldPlus (l : List Char) : Bool :=
  tldPlusAux l.length l

/-- The domain side `\w+([.-]?\w+)*(\.\w{2,3})+`: some split into a word
sequence followed by the dotted tail. -/
def domainTailOk (l : List Char) : Bool :=
  (List.range (l.length + 1)).any fun i =>
    wordSeq (l.take i) && tldPlus (l.drop i)

/-- Full match of the user schema's email pattern. -/
def schemaEmailOk (s : String) : Bool :=
  let cs := s.data
  (List.range cs.length).any fun i =>
    wordSeq (cs.take i) && (cs.drop i).head? == some '@' && domainTailOk (cs.drop (i + 1))

/-- Saving a brand-new `User` document (`new User(...)` + `save()`):
schema setters run first (`trim` on names, `trim`+`lowercase` on email),
then schema validation (name length bounds 2–30, email required +
pattern, password required with `minlength: 4`), then the pre-save hook
replaces the plaintext password with its bcrypt hash. -/
def saveNewUser (nextId : Nat) (firstName lastName email password : String) :
    Except String StoredUser :=
  let fn := jsTrim firstName
  let ln := jsTrim lastName
  let em := normalizeEmail email
  if 2 ≤ fn.length ∧ fn.length ≤ 30 ∧ 2 ≤ ln.length ∧ ln.length ≤ 30 ∧
      em ≠ "" ∧ schemaEmailOk em = true ∧ 4 ≤ password.length then
    .ok ⟨nextId, fn, ln, em, bcryptHash password, none, true⟩
  else
    .error "User validation failed"

/-! ## Validation service (`src/services/validation.service.ts`) -/

/-- Registration fields as destructured from `req.body` by the signup
controller; a JS `undefined`/missing field is modelled by `""` (both are
falsy, which is the only property the validator tests). -/
structure RegInput where
  firstName : String
  lastName : String
  email : String
  password : String
  deriving DecidableEq, Repr

/-- `isValidEmail` — `/^[^\s@]+@[^\s@]+\.[^\s@]+$/`: no whitespace,
exactly one `@`, a non-empty local part, and a dot strictly inside the
domain part. -/
def isValidEmail (email : String) : Bool :=
  let cs := email.data
  cs.countP (fun c => c == '@') == 1 &&
    !cs.any Char.isWhitespace &&
    !(cs.takeWhile (fun c => c != '@')).isEmpty &&
    (let domain := (cs.dropWhile (fun c => c != '@')).drop 1
     ((domain.drop 1).dropLast).any (fun c => c == '.'))

/-- The error list built by `validateRegistration`, in source order
(first name, last name, email, password). -/
def regErrors (data : RegInput) : List String :=
  (if data.firstName == "" then ["First name is required"]
   else if (jsTrim data.firstName).length < 2 then
     ["First name must be at least 2 characters long"]
   else []) ++
  (if data.lastName == "" then ["Last name is required"]
   else if (jsTrim data.lastName).length < 2 then
     ["Last name must be at least 2 characters long"]
   else []) ++
  (if normalizeEmail data.email == "" then ["Email is required"]
   else if !isValidEmail (normalizeEmail data.email) then ["Invalid email format"]
   else []) ++
  (if data.password == "" then ["Password is required"]
   else if data.password.length < 8 then
     ["Password must be at least 4 characters long"]
   else if !(data.password.data.any Char.isLower && data.password.data.any Char.isUpper &&
       data.password.data.any Char.isDigit) then
     ["Password must contain at least one uppercase letter, one lowercase letter, and one number"]
   else [])

/-- Result shape of the validator: `isValid`, the error list, and the
sanitised data (present exactly when there are no errors). -/
structure RegValidation where
  isValid : Bool
  errors : List String
  sanitized : Option RegInput
  deriving DecidableEq, Repr

/-- `validationService.validateRegistration`. -/
def validateRegistration (data : RegInput) : RegValidation :=
  let errs := regErrors data
  { isValid := errs.isEmpty
    errors := errs
    sanitized :=
      if errs.isEmpty then
        some ⟨jsTrim data.firstName, jsTrim data.lastName, normalizeEmail data.email, data.password⟩
      else none }

/-- Login fields as destructured from `req.body` by the signin
controller (missing modelled by `""`). -/
structure LoginInput where
  email : String
  password : String
  deriving DecidableEq, Repr

/-- The error list built by `validateLogin`. -/
def loginErrors (data : LoginInput) : List String :=
  (if normalizeEmail data.email == "" then ["Email is required"]
   else if !isValidEmail (normalizeEmail data.email) then ["Invalid email format"]
   else []) ++
  (if data.password == "" then ["Password is required"] else [])

/-- Result shape of `validateLogin`. -/
structure LoginValidation where
  isValid : Bool
  errors : List String
  sanitized : Option LoginInput
  deriving DecidableEq, Repr

/-- `validationService.validateLogin`. -/
def validateLogin (data : LoginInput) : LoginValidation :=
  let errs := loginErrors data
  { isValid := errs.isEmpty
    errors := errs
    sanitized :=
      if errs.isEmpty then some ⟨normalizeEmail data.email, data.password⟩ else none }

/-! ## Auth service (`src/services/auth.service.ts`) -/

/-- The `user` part of `AuthResponse`. -/
structure AuthUser where
  id : Nat
  email : String
  firstName : String
  lastName : String
  deriving DecidableEq, Repr

/-- The error thrown by `register` on a duplicate email. -/
def dupEmailMsg : String := "User with this email already exists"

/-- `authService.register`: duplicate-email check (`User.findOne`)
followed by document creation/save and token minting. Returns the
`AuthResponse` and the updated user collection. -/
def registerSvc (store : List StoredUser) (nextId : Nat) (secret : String) (nowMs : Int)
    (d : RegInput) : Except String (AuthUser × JwtToken × List StoredUser) :=
  if store.any (fun u => u.email == d.email) then .error dupEmailMsg
  else
    match saveNewUser nextId d.firstName d.lastName d.email d.password with
    | .error e => .error e
    | .ok u =>
      .ok (⟨u.uid, u.email, u.firstName, u.lastName⟩,
           jwtSign ⟨u.uid, u.email⟩ secret nowMs, store ++ [u])

/-- `authService.login`: find by email (with `+password`), compare with
the stored hash; both "no such user" and "wrong password" throw
`'Invalid email or password'`. -/
def loginSvc (store : List StoredUser) (secret : String) (nowMs : Int)
    (email password : String) : Except String (AuthUser × JwtToken) :=
  match store.find? (fun u => u.email == email) with
  | none => .error "Invalid email or password"
  | some u =>
    if bcryptCompare password u.password then
      .ok (⟨u.uid, u.email, u.firstName, u.lastName⟩, jwtSign ⟨u.uid, u.email⟩ secret nowMs)
    else .error "Invalid email or password"

/-- `authService.changePassword`: verify the current password, assign the
new plaintext and `save()` — schema validation (`minlength: 4`) sees the
plaintext, then the pre-save hook hashes it. -/
def changePasswordSvc (store : List StoredUser) (uid : Nat) (cur new : String) :
    Except String (List StoredUser) :=
  match store.find? (fun u => u.uid == uid) with
  | none => .error "User not found"
  | some u =>
    if bcryptCompare cur u.password then
      if 4 ≤ new.length then
        .ok (store.map fun v => if v.uid == uid then { v with password := bcryptHash new } else v)
      else .error "User validation failed"
    else .error "Current password is incorrect"

/-- Follows the spec's words (§4.1): `verifyCredentials(email, password)`
looks the user up by email and compares the supplied password against the
stored hash. Used to compare the login flow against the specification. -/
def verifyCredentials (store : List StoredUser) (email password : String) : Bool :=
  match store.find? (fun u => u.email == email) with
  | none => false
  | some u => bcryptCompare password u.password

/-! ## User service (`src/services/user.service.ts`) -/

/-- `userService.getUserById` — `User.findById(userId).select('-password')`. -/
def getUserByIdSvc (store : List StoredUser) (uid : Nat) : Option SafeUser :=
  (store.find? (fun u => u.uid == uid)).map toSafeUser

/-- `userService.deactivateUser` — load, set `isActive := false`, save. -/
def deactivateUserSvc (store : List StoredUser) (uid : Nat) :
    Except String (List StoredUser) :=
  match store.find? (fun u => u.uid == uid) with
  | none => .error "User not found"
  | some _ =>
    .ok (store.map fun v => if v.uid == uid then { v with isActive := false } else v)

/-- `userService.updateUser` restricted to the surgery-date field: load,
assign, save (the pre-save hook does not re-hash since the password is
untouched). -/
def updateUserSurgeryDate (store : List StoredUser) (uid : Nat) (d : Int) :
    Except String (List StoredUser) :=
  match store.find? (fun u => u.uid == uid) with
  | none => .error "User not found"
  | some _ =>
    .ok (store.map fun v => if v.uid == uid then { v with surgeryDate := some d } else v)

/-! ## Recovery day (`userSchema.methods.calculateRecoveryDay`) -/

/-- One day in milliseconds (`1000 * 60 * 60 * 24`). -/
def msPerDay : Int := 86400000

/-- `Math.ceil(a / b)` for integers with `b > 0` (JS float division then
ceiling). -/
def jsCeilDiv (a b : Int) : Int :=
  -((-a) / b)

/-- `calculateRecoveryDay`: 0 without a surgery date, otherwise
`Math.max(0, Math.ceil((now - surgeryDate) / 86400000))`. -/
def calculateRecoveryDay (nowMs : Int) (surgeryDate : Option Int) : Int :=
  match surgeryDate with
  | none => 0
  | some s => max 0 (jsCeilDiv (nowMs - s) msPerDay)

/-! ## Auth controllers (`src/controllers/auth.controller.ts`) -/

/-- One element of the `errors` array of an error response. -/
structure FieldError where
  message : String
  field : String
  deriving DecidableEq, Repr

/-- `getFieldFromError`: map a validator message to a field name. -/
def getFieldFromError (e : String) : String :=
  if strIncludes e "First name" then "firstName"
  else if strIncludes e "Last name" then "lastName"
  else if strIncludes e "Email" then "email"
  else if strIncludes e "Password" then "password"
  else "general"

/-- The `user` object of signup/signin response bodies: `surgeryDate` is
echoed as the raw request string or `null`, `recoveryDay` as a number. -/
structure ApiUserView where
  id : Nat
  firstName : String
  lastName : String
  email : String
  surgeryDate : Option String
  recoveryDay : Int
  deriving DecidableEq, Repr

/-- An HTTP response of the signup/signin endpoints: status code plus the
JSON body fields the code writes. -/
structure AuthHttpResponse where
  status : Nat
  success : Bool
  error : Option String
  message : Option String
  errors : List FieldError
  user : Option ApiUserView
  token : Option JwtToken
  deriving DecidableEq, Repr

/-- `req.body` of `POST /auth/signup`. -/
structure SignupBody where
  firstName : String
  lastName : String
  email : String
  password : String
  surgeryDate : Option String
  deriving DecidableEq, Repr

/-- `surgeryDate || null` — a missing or empty (falsy) string becomes
null. -/
def echoSurgeryDate (d : Option String) : Option String :=
  match d with
  | none => none
  | some s => if s == "" then none else some s

/-- The `signup` controller: validate, register, map the duplicate-email
error to 409 (any message containing `'already exists'`), anything else
to 500; on success answer 201 echoing the request's surgery date with
`recoveryDay: 0`, without ever persisting that date. -/
def signupController (store : List StoredUser) (nextId : Nat) (secret : String)
    (nowMs : Int) (body : SignupBody) : AuthHttpResponse × List StoredUser :=
  let v := validateRegistration ⟨body.firstName, body.lastName, body.email, body.password⟩
  match v.sanitized with
  | none =>
    (⟨400, false, some "Validation failed", none,
      v.errors.map (fun e => ⟨e, getFieldFromError e⟩), none, none⟩, store)
  | some s =>
    match registerSvc store nextId secret nowMs s with
    | .error msg =>
      if strIncludes msg "already exists" then
        (⟨409, false, some "Registration failed", none,
          [⟨"Email already in use", "email"⟩], none, none⟩, store)
      else
        (⟨500, false, some "Failed to create user", none,
          [⟨"An unexpected error occurred. Please try again.", "general"⟩], none, none⟩, store)
    | .ok (au, tok, store') =>
      (⟨201, true, none, some "User created successfully", [],
        some ⟨au.id, au.firstName, au.lastName, au.email, echoSurgeryDate body.surgeryDate, 0⟩,
        some tok⟩, store')

/-- The fixed failure response of `signin` for any error thrown by
`authService.login` — identical for "no such user" and "wrong password". -/
def invalidCredentialsResponse : AuthHttpResponse :=
  ⟨400, false, some "Authentication failed", none,
   [⟨"Invalid email or password", "credentials"⟩], none, none⟩

/-- The `signin` controller: validate, login; on success answer 200 with
`surgeryDate: null` and `recoveryDay: 0` hard-coded. -/
def signinController (store : List StoredUser) (secret : String) (nowMs : Int)
    (body : LoginInput) : AuthHttpResponse :=
  let v := validateLogin body
  match v.sanitized with
  | none =>
    ⟨400, false, some "Validation failed", none,
     v.errors.map (fun e => ⟨e, getFieldFromError e⟩), none, none⟩
  | some s =>
    match loginSvc store secret nowMs s.email s.password with
    | .error _ => invalidCredentialsResponse
    | .ok (au, tok) =>
      ⟨200, true, none, some "User signed in successfully", [],
       some ⟨au.id, au.firstName, au.lastName, au.email, none, 0⟩, some tok⟩

/-- The `user` object of profile-shaped responses (`/auth/me`,
`/auth/surgery-date`, `/auth/profile`): the stored `Date` plus the
derived recovery day. -/
structure ProfileUserView where
  id : Nat
  firstName : String
  lastName : String
  email : String
  surgeryDate : Option Int
  recoveryDay : Int
  deriving DecidableEq, Repr

/-- An HTTP response of the surgery-date endpoint. -/
structure ProfileHttpResponse where
  status : Nat
  success : Bool
  error : Option String
  message : Option String
  errors : List FieldError
  user : Option ProfileUserView
  deriving DecidableEq, Repr

/-- The `surgeryDate` field of `PATCH /auth/surgery-date`'s body: absent
(falsy), present but unparseable (`new Date(x)` is NaN), or parsed to an
instant. -/
inductive SurgeryDateBody where
  | missing
  | unparseable
  | parsed (ms : Int)
  deriving DecidableEq, Repr

/-- The `updateSurgeryDate` controller: reject a missing, unparseable or
future date with 400; otherwise persist via `userService.updateUser` and
answer 200 with the updated user and its recomputed recovery day. A
thrown `'User not found'` lands in the outer catch (500). -/
def updateSurgeryDateController (store : List StoredUser) (uid : Nat) (nowMs : Int)
    (body : SurgeryDateBody) : ProfileHttpResponse × List StoredUser :=
  match body with
  | .missing =>
    (⟨400, false, some "Validation failed", none,
      [⟨"Surgery date is required", "surgeryDate"⟩], none⟩, store)
  | .unparseable =>
    (⟨400, false, some "Validation failed", none,
      [⟨"Invalid date format", "surgeryDate"⟩], none⟩, store)
  | .parsed d =>
    if nowMs < d then
      (⟨400, false, some "Validation failed", none,
        [⟨"Surgery date cannot be in the future", "surgeryDate"⟩], none⟩, store)
    else
      match updateUserSurgeryDate store uid d with
      | .error _ =>
        (⟨500, false, some "Failed to update surgery date", none,
          [⟨"An unexpected error occurred. Please try again.", "general"⟩], none⟩, store)
      | .ok store' =>
        match (store'.find? (fun u => u.uid == uid)).map toSafeUser with
        | none =>
          (⟨404, false, some "User not found", none,
            [⟨"User account not found", "user"⟩], none⟩, store')
        | some u =>
          (⟨200, true, none, some "Surgery date updated successfully", [],
            some ⟨u.uid, u.firstName, u.lastName, u.email, u.surgeryDate,
              calculateRecoveryDay nowMs u.surgeryDate⟩⟩, store')

/-! ## Authorization gate (`src/middleware/auth.middleware.ts`) -/

/-- The identity the middleware attaches to `req.user`. -/
structure ReqUser where
  id : Nat
  firstName : String
  lastName : String
  email : String
  deriving DecidableEq, Repr

/-- Outcome of the middleware: reject with 401 and an error string, or
call `next()` with the resolved identity attached. -/
inductive AuthGateResult where
  | unauthorized (error : String)
  | proceed (user : ReqUser)
  deriving DecidableEq, Repr

/-- `authenticateToken`: extract the bearer token, verify it, re-resolve
the user with `User.findById(decoded.userId).select('-password')`, and
either attach the identity or fail with 401. Note that the lookup is by
id only — the `isActive` flag is not consulted. -/
def authenticateToken (store : List StoredUser) (secret : String) (nowMs : Int)
    (tok : Option JwtToken) : AuthGateResult :=
  match tok with
  | none => .unauthorized "Access token required"
  | some t =>
    match jwtVerify t secret nowMs with
    | .error .invalidToken => .unauthorized "Invalid token"
    | .error .expired => .unauthorized "Token expired"
    | .ok claims =>
      match store.find? (fun u => u.uid == claims.userId) with
      | none => .unauthorized "User not found"
      | some u => .proceed ⟨u.uid, u.firstName, u.lastName, u.email⟩

/-! ## Keyed progress store
(`src/services/brochure-progress.service.ts`,
`src/models/brochure-progress.model.ts`) -/

/-- A `BrochureProgress` document. -/
structure ProgressRecord where
  userId : String
  sectionId : String
  itemId : String
  completed : Bool
  notes : String
  updatedAtMs : Int
  deriving DecidableEq, Repr

/-- The composite key `{ userId, sectionId, itemId }` used as the filter
of `findOneAndUpdate` (and as the unique compound index). -/
def progressKeyMatch (uid sid iid : String) (r : ProgressRecord) : Bool :=
  r.userId == uid && r.sectionId == sid && r.itemId == iid

/-- Replace the first element satisfying `p` by its image under `f`
(Mongo single-document update). -/
def updateFirst (p : α → Bool) (f : α → α) : List α → List α
  | [] => []
  | x :: xs => if p x then f x :: xs else x :: updateFirst p f xs

/-- `BrochureProgressService.updateProgress` —
`findOneAndUpdate(key, { completed, notes, updatedAt }, { upsert: true, new: true })`.
An absent `notes` (JS `undefined`) is stripped from the update by
Mongoose, leaving the stored value (or the schema default `""` on
insert). -/
def upsertProgress (store : List ProgressRecord) (uid sid iid : String)
    (completed : Bool) (notes : Option String) (nowMs : Int) : List ProgressRecord :=
  if store.any (progressKeyMatch uid sid iid) then
    updateFirst (progressKeyMatch uid sid iid)
      (fun r =>
        { r with completed := completed, notes := notes.getD r.notes, updatedAtMs := nowMs })
      store
  else
    store ++ [⟨uid, sid, iid, completed, notes.getD "", nowMs⟩]

/-- The invariant enforced by the unique compound index on
`{ userId, sectionId, itemId }`: at most one record per key triple. -/
def noDupProgressKeys (store : List ProgressRecord) : Prop :=
  ∀ uid sid iid, store.countP (progressKeyMatch uid sid iid) ≤ 1

/-! ## Keyed diary store (`src/services/symptom-entry.service.ts`) -/

/-- A `SymptomEntry` document; `id` is the Mongo `_id` (a 24-hex-digit
ObjectId string). -/
structure SymptomEntryDoc where
  id : String
  userId : String
  date : String
  painLevel : Int
  location : String
  description : String
  medications : String
  timestampMs : Int
  deriving DecidableEq, Repr

/-- A hexadecimal digit. -/
def isHexChar (c : Char) : Bool :=
  c.isDigit || (97 ≤ c.toNat && c.toNat ≤ 102) || (65 ≤ c.toNat && c.toNat ≤ 70)

/-- Whether a path parameter casts to a Mongo ObjectId (24 hex digits);
a filter with a non-castable `_id` makes the query throw a `CastError`. -/
def isValidObjectId (s : String) : Bool :=
  s.length == 24 && s.data.all isHexChar

/-- The result shape of the symptom-entry service for single-entry
operations (`{ success, data?, message }`). -/
structure SvcEntryResult where
  success : Bool
  data : Option SymptomEntryDoc
  message : String
  deriving DecidableEq, Repr

/-- Schema validation of a `SymptomEntry` on `save()`: `userId`, `date`
and `painLevel` required, `painLevel` within `min: 0` / `max: 10`. -/
def symptomSaveOk (e : SymptomEntryDoc) : Bool :=
  e.userId != "" && e.date != "" && decide (0 ≤ e.painLevel) && decide (e.painLevel ≤ 10)

/-- The fields of `SymptomEntryRequest` as assembled by the create
controller (missing optionals already defaulted to `""`). -/
structure EntryReq where
  date : String
  painLevel : Int
  location : String
  description : String
  medications : String
  deriving DecidableEq, Repr

/-- `SymptomEntryService.createEntry`: build the document and `save()`;
a validation failure is caught and reported as a failed result. -/
def createEntrySvc (store : List SymptomEntryDoc) (freshId : String) (nowMs : Int)
    (userId : String) (d : EntryReq) : SvcEntryResult × List SymptomEntryDoc :=
  let e : SymptomEntryDoc :=
    ⟨freshId, userId, d.date, d.painLevel, d.location, d.description, d.medications, nowMs⟩
  if symptomSaveOk e then
    (⟨true, some e, "Symptom entry created successfully"⟩, store ++ [e])
  else
    (⟨false, none, "Failed to create symptom entry"⟩, store)

/-- A partial update of a symptom entry (`Partial<SymptomEntryRequest>`). -/
structure EntryPatch where
  date : Option String
  painLevel : Option Int
  location : Option String
  description : Option String
  medications : Option String
  deriving DecidableEq, Repr

/-- Apply an update document to an entry (absent fields untouched;
`findOneAndUpdate` does not run the schema validators by default). -/
def applyPatch (p : EntryPatch) (e : SymptomEntryDoc) : SymptomEntryDoc :=
  { e with
    date := p.date.getD e.date
    painLevel := p.painLevel.getD e.painLevel
    location := p.location.getD e.location
    description := p.description.getD e.description
    medications := p.medications.getD e.medications }

/-- `SymptomEntryService.updateEntry` —
`findOneAndUpdate({ _id, userId }, updateData, { new: true })`; a
non-castable id throws (caught as a failed result), no match is "not
found", and the filter scopes by owner. -/
def updateEntrySvc (store : List SymptomEntryDoc) (userId entryId : String)
    (p : EntryPatch) : SvcEntryResult × List SymptomEntryDoc :=
  if !isValidObjectId entryId then
    (⟨false, none, "Failed to update symptom entry"⟩, store)
  else
    match store.find? (fun e => e.id == entryId && e.userId == userId) with
    | none => (⟨false, none, "Symptom entry not found"⟩, store)
    | some e0 =>
      (⟨true, some (applyPatch p e0), "Symptom entry updated successfully"⟩,
       updateFirst (fun e => e.id == entryId && e.userId == userId) (applyPatch p) store)

/-- Remove the first element satisfying `p` (Mongo single-document
delete). -/
def eraseFirstMatch (p : α → Bool) : List α → List α
  | [] => []
  | x :: xs => if p x then xs else x :: eraseFirstMatch p xs

/-- `SymptomEntryService.deleteEntry` —
`findOneAndDelete({ _id, userId })`. -/
def deleteEntrySvc (store : List SymptomEntryDoc) (userId entryId : String) :
    SvcEntryResult × List SymptomEntryDoc :=
  if !isValidObjectId entryId then
    (⟨false, none, "Failed to delete symptom entry"⟩, store)
  else
    match store.find? (fun e => e.id == entryId && e.userId == userId) with
    | none => (⟨false, none, "Symptom entry not found"⟩, store)
    | some _ =>
      (⟨true, none, "Symptom entry deleted successfully"⟩,
       eraseFirstMatch (fun e => e.id == entryId && e.userId == userId) store)

/-- `SymptomEntryService.clearUserEntries` — `deleteMany({ userId })`. -/
def clearUserEntriesSvc (store : List SymptomEntryDoc) (userId : String) :
    SvcEntryResult × List SymptomEntryDoc :=
  (⟨true, none, "All symptom entries cleared successfully"⟩,
   store.filter (fun e => !(e.userId == userId)))

/-- Insert into a list already sorted by `timestampMs` descending. -/
def insertByTs (e : SymptomEntryDoc) : List SymptomEntryDoc → List SymptomEntryDoc
  | [] => [e]
  | x :: xs => if x.timestampMs ≤ e.timestampMs then e :: x :: xs else x :: insertByTs e xs

/-- Sort by `timestampMs` descending (`sort({ timestamp: -1 })`). -/
def sortByTsDesc : List SymptomEntryDoc → List SymptomEntryDoc
  | [] => []
  | x :: xs => insertByTs x (sortByTsDesc xs)

/-- `SymptomEntryService.getUserEntries` —
`find({ userId }).sort({ timestamp: -1 })`. -/
def getUserEntriesSvc (store : List SymptomEntryDoc) (userId : String) :
    List SymptomEntryDoc :=
  sortByTsDesc (store.filter (fun e => e.userId == userId))

/-! ## Tracker controllers (`src/controllers/symptom-entry.controller.ts`) -/

/-- An HTTP response of single-entry tracker endpoints. -/
structure TrackerHttpResponse where
  status : Nat
  success : Bool
  data : Option SymptomEntryDoc
  message : String
  deriving DecidableEq, Repr

/-- An HTTP response of `GET /tracker`. -/
structure TrackerListResponse where
  status : Nat
  success : Bool
  data : List SymptomEntryDoc
  message : String
  deriving DecidableEq, Repr

/-- `req.body` of `POST /tracker` (`location`/`description`/`medications`
may be absent). -/
structure TrackerBody where
  date : String
  painLevel : Int
  location : Option String
  description : Option String
  medications : Option String
  deriving DecidableEq, Repr

/-- The `createSymptomEntry` controller: default the optional fields to
`""` (`req.body.location || ''`), call the service, 201 on success and
400 otherwise. -/
def createSymptomEntryController (store : List SymptomEntryDoc) (freshId : String)
    (nowMs : Int) (userId : String) (body : TrackerBody) :
    TrackerHttpResponse × List SymptomEntryDoc :=
  let r := createEntrySvc store freshId nowMs userId
    ⟨body.date, body.painLevel, body.location.getD "", body.description.getD "",
     body.medications.getD ""⟩
  if r.1.success then (⟨201, true, r.1.data, r.1.message⟩, r.2)
  else (⟨400, false, none, r.1.message⟩, r.2)

/-- The `getUserSymptomEntries` controller (the service read cannot fail
in the model, so the response is always 200). -/
def getUserSymptomEntriesController (store : List SymptomEntryDoc) (userId : String) :
    TrackerListResponse :=
  ⟨200, true, getUserEntriesSvc store userId, "Symptom entries retrieved successfully"⟩

/-- The update payload as assembled by the `updateSymptomEntry`
controller: `date` is included only when truthy (a present-but-empty
string is dropped), the other fields whenever present. -/
def controllerPatch (body : EntryPatch) : EntryPatch :=
  { body with
    date := match body.date with
      | none => none
      | some d => if d == "" then none else some d }

/-- The `updateSymptomEntry` controller: 200 on success, 404 on any
failed service result. -/
def updateSymptomEntryController (store : List SymptomEntryDoc) (userId entryId : String)
    (body : EntryPatch) : TrackerHttpResponse × List SymptomEntryDoc :=
  let r := updateEntrySvc store userId entryId (controllerPatch body)
  if r.1.success then (⟨200, true, r.1.data, r.1.message⟩, r.2)
  else (⟨404, false, none, r.1.message⟩, r.2)

/-- The `deleteSymptomEntry` controller: 200 on success, 404 otherwise. -/
def deleteSymptomEntryController (store : List SymptomEntryDoc) (userId entryId : String) :
    TrackerHttpResponse × List SymptomEntryDoc :=
  let r := deleteEntrySvc store userId entryId
  if r.1.success then (⟨200, true, none, r.1.message⟩, r.2)
  else (⟨404, false, none, r.1.message⟩, r.2)

/-- The `clearUserSymptomEntries` controller: 200 on success, 400
otherwise. -/
def clearUserSymptomEntriesController (store : List SymptomEntryDoc) (userId : String) :
    TrackerHttpResponse × List SymptomEntryDoc :=
  let r := clearUserEntriesSvc store userId
  if r.1.success then (⟨200, true, none, r.1.message⟩, r.2)
  else (⟨400, false, none, r.1.message⟩, r.2)

/-! ## Route dispatch (`src/routes/symptom-entry.routes.ts`)

Express matches registered routes in registration order; the routes file
registers `DELETE '/:id'` before `DELETE '/clear'`. A path pattern here
is a single-segment pattern: a parameter (matches any segment) or a
literal. -/

/-- The two handlers registered for `DELETE` on the tracker router. -/
inductive TrackerDeleteHandler where
  | byIdHandler
  | clearHandler
  deriving DecidableEq, Repr

/-- A single-segment Express path pattern. -/
inductive SegPattern where
  | segParam
  | segLit (s : String)
  deriving DecidableEq, Repr

/-- Whether a pattern matches a path segment (`/:id` matches any
segment, a literal only itself). -/
def segMatches : SegPattern → String → Bool
  | .segParam, _ => true
  | .segLit s, seg => s == seg

/-- The `DELETE` routes of the tracker router, in registration order:
`router.delete('/:id', deleteSymptomEntry)` then
`router.delete('/clear', clearUserSymptomEntries)`. -/
def trackerDeleteRoutes : List (SegPattern × TrackerDeleteHandler) :=
  [(.segParam, .byIdHandler), (.segLit "clear", .clearHandler)]

/-- First-match dispatch of a `DELETE /tracker/<seg>` request. -/
def dispatchTrackerDelete (seg : String) : Option TrackerDeleteHandler :=
  (trackerDeleteRoutes.find? (fun r => segMatches r.1 seg)).map (fun r => r.2)

/-- Full handling of `DELETE /tracker/<seg>` for an authenticated user:
dispatch to the first matching registered route and run its controller. -/
def handleTrackerDelete (store : List SymptomEntryDoc) (userId seg : String) :
    TrackerHttpResponse × List SymptomEntryDoc :=
  match dispatchTrackerDelete seg with
  | some .byIdHandler => deleteSymptomEntryController store userId seg
  | some .clearHandler => clearUserSymptomEntriesController store userId
  | none => (⟨404, false, none, "Not found"⟩, store)

/-! ## Concrete fixtures used by witnesses and counterexamples -/

/-- A stored diary entry owned by user `"u1"` (a well-formed ObjectId). -/
def demoEntry : SymptomEntryDoc :=
  ⟨"65a0000000000000000000a1", "u1", "2024-01-15", 5, "", "", "", 1705300000000⟩

/-- A diary store holding exactly `demoEntry`. -/
def demoSymptomStore : List SymptomEntryDoc := [demoEntry]

/-- A deactivated stored user (as left by `deactivateUser`). -/
def demoDeactivatedUser : StoredUser :=
  ⟨1, "Ada", "Smith", "ada@x.com", bcryptHash "Passw0rd1", none, false⟩

/-- An active stored user with the same shape. -/
def demoActiveUser : StoredUser :=
  ⟨1, "Ada", "Smith", "ada@x.com", bcryptHash "Passw0rd1", none, true⟩

/-! ## Character and string lemmas -/

/-- `Char.ofNat` of a valid (below-surrogate) code point keeps its value. -/
theorem char_toNat_ofNat_of_lt {n : Nat} (h : n < 55296) : (Char.ofNat n).toNat = n := by
  have hv : n.isValidChar := Or.inl h
  rw [Char.ofNat, dif_pos hv]
  simp [Char.ofNatAux, Char.toNat, UInt32.toNat]

/-- Characters are equal exactly when their code points are. -/
theorem char_eq_iff_toNat {c d : Char} : c = d ↔ c.toNat = d.toNat :=
  ⟨fun h => by rw [h], fun h => Char.ext (UInt32.toNat.inj h)⟩

/-- `Char.toLower` in if-then-else form. -/
theorem char_toLower_eq (c : Char) :
    c.toLower = if 65 ≤ c.toNat ∧ c.toNat ≤ 90 then Char.ofNat (c.toNat + 32) else c := by
  simp only [Char.toLower, ge_iff_le]

/-- Code point of `Char.toLower`. -/
theorem char_toNat_toLower (c : Char) :
    c.toLower.toNat = if 65 ≤ c.toNat ∧ c.toNat ≤ 90 then c.toNat + 32 else c.toNat := by
  rw [char_toLower_eq]
  by_cases h : 65 ≤ c.toNat ∧ c.toNat ≤ 90
  · rw [if_pos h, if_pos h, char_toNat_ofNat_of_lt (by omega)]
  · rw [if_neg h, if_neg h]

/-- `Char.isWhitespace` by code point. -/
theorem char_isWhitespace_iff (c : Char) :
    c.isWhitespace = true ↔ c.toNat = 32 ∨ c.toNat = 9 ∨ c.toNat = 13 ∨ c.toNat = 10 := by
  simp only [Char.isWhitespace, Bool.or_eq_true, decide_eq_true_eq]
  have h32 : (c = ' ') ↔ c.toNat = 32 := char_eq_iff_toNat
  have h9 : (c = '\t') ↔ c.toNat = 9 := char_eq_iff_toNat
  have h13 : (c = '\r') ↔ c.toNat = 13 := char_eq_iff_toNat
  have h10 : (c = '\n') ↔ c.toNat = 10 := char_eq_iff_toNat
  rw [h32, h9, h13, h10]
  tauto

/-- Lowercasing does not change whether a character is whitespace. -/
theorem char_toLower_isWhitespace (c : Char) :
    c.toLower.isWhitespace = c.isWhitespace := by
  by_cases h : 65 ≤ c.toNat ∧ c.toNat ≤ 90
  · have h1 : c.toLower.toNat = c.toNat + 32 := by rw [char_toNat_toLower, if_pos h]
    have hw1 : c.toLower.isWhitespace = false := by
      rw [Bool.eq_false_iff]
      intro hw
      have := (char_isWhitespace_iff _).mp hw
      omega
    have hw2 : c.isWhitespace = false := by
      rw [Bool.eq_false_iff]
      intro hw
      have := (char_isWhitespace_iff _).mp hw
      omega
    rw [hw1, hw2]
  · have h1 : c.toLower = c := by rw [char_toLower_eq, if_neg h]
    rw [h1]

/-- `Char.toLower` is idempotent. -/
theorem char_toLower_toLower (c : Char) : c.toLower.toLower = c.toLower := by
  by_cases h : 65 ≤ c.toNat ∧ c.toNat ≤ 90
  · have h1 : c.toLower.toNat = c.toNat + 32 := by rw [char_toNat_toLower, if_pos h]
    rw [char_toLower_eq c.toLower, if_neg (by omega)]
  · have h1 : c.toLower.toNat = c.toNat := by rw [char_toNat_toLower, if_neg h]
    rw [char_toLower_eq c.toLower, if_neg (by omega)]

/-- `dropWhile` commutes with a `map` whose function preserves the
predicate. -/
theorem dropWhile_map_of_pred (f : Char → Char) (p : Char → Bool)
    (hp : ∀ c, p (f c) = p c) (l : List Char) :
    (l.map f).dropWhile p = (l.dropWhile p).map f := by
  induction l with
  | nil => rfl
  | cons x xs ih =>
    by_cases h : p x = true
    · simp [List.dropWhile_cons, h, hp, ih]
    · simp only [Bool.not_eq_true] at h
      simp [List.dropWhile_cons, h, hp]

/-- `rdropWhile` commutes with a predicate-preserving `map`. -/
theorem rdropWhile_map_of_pred (f : Char → Char) (p : Char → Bool)
    (hp : ∀ c, p (f c) = p c) (l : List Char) :
    List.rdropWhile p (l.map f) = (List.rdropWhile p l).map f := by
  simp only [List.rdropWhile]
  rw [← List.map_reverse, dropWhile_map_of_pred f p hp, List.map_reverse]

/-- Trimming commutes with lowercasing. -/
theorem trimChars_map_toLower (l : List Char) :
    trimChars (l.map Char.toLower) = (trimChars l).map Char.toLower := by
  simp only [trimChars]
  rw [dropWhile_map_of_pred _ _ char_toLower_isWhitespace,
    rdropWhile_map_of_pred _ _ char_toLower_isWhitespace]

/-- A fully trimmed list has no leading whitespace left. -/
theorem dropWhile_rdropWhile_of_dropped (p : Char → Bool) (l : List Char) :
    List.dropWhile p (List.rdropWhile p (List.dropWhile p l)) =
      List.rdropWhile p (List.dropWhile p l) := by
  obtain ⟨t, ht⟩ := List.rdropWhile_prefix p (List.dropWhile p l)
  cases hB : List.rdropWhile p (List.dropWhile p l) with
  | nil => simp
  | cons b bs =>
    rw [hB] at ht
    have hA : List.dropWhile p l = b :: (bs ++ t) := by
      rw [← ht]; rfl
    have hpb : p b = false := by
      by_cases hpb : p b = true
      · exfalso
        have hidem : List.dropWhile p (List.dropWhile p l) = List.dropWhile p l :=
          List.dropWhile_idempotent p l
        rw [hA, List.dropWhile_cons, if_pos hpb] at hidem
        have hle : (List.dropWhile p (bs ++ t)).length ≤ (bs ++ t).length :=
          List.IsSuffix.length_le (List.dropWhile_suffix p)
        have hlen := congrArg List.length hidem
        simp only [List.length_cons, List.length_append] at hlen hle
        omega
      · simpa using hpb
    rw [List.dropWhile_cons, hpb]
    simp

/-- JS `trim` is idempotent. -/
theorem trimChars_idem (l : List Char) : trimChars (trimChars l) = trimChars l := by
  simp only [trimChars]
  rw [dropWhile_rdropWhile_of_dropped, List.rdropWhile_idempotent]

/-- Email sanitisation is idempotent, so the schema's `trim`+`lowercase`
setters leave an already-sanitised email unchanged. -/
theorem normalizeEmail_idem (s : String) :
    normalizeEmail (normalizeEmail s) = normalizeEmail s := by
  simp only [normalizeEmail, jsToLower, jsTrim]
  congr 1
  rw [trimChars_map_toLower, List.map_map, trimChars_idem]
  apply List.map_congr_left
  intro c _
  simp only [Function.comp_apply]
  exact char_toLower_toLower c

/-! ## Claim C1 -/

/-- C1: `DELETE /tracker/clear` is claimed to answer 200 and delete all
of the user's entries. The routes file registers `DELETE '/:id'` before
`DELETE '/clear'`, so Express dispatches the `clear` segment to
`deleteSymptomEntry`, which treats `"clear"` as an entry id: the cast to
ObjectId fails, the controller answers 404, the store is unchanged, and a
following `GET /tracker` still returns the entry — contradicting both the
spec and the code's own route comments and swagger documentation for
`clearUserSymptomEntries`. -/
theorem c1_clear_route_shadowed_by_id_route :
    dispatchTrackerDelete "clear" = some TrackerDeleteHandler.byIdHandler ∧
    handleTrackerDelete demoSymptomStore "u1" "clear" =
      (⟨404, false, none, "Failed to delete symptom entry"⟩, demoSymptomStore) ∧
    (getUserSymptomEntriesController demoSymptomStore "u1").data = [demoEntry] := by
  refine ⟨by decide, by decide, by decide⟩

/-! ## Claim C2 -/

/-- C2, counterexample: at 2024-01-15T10:00:00Z (1705312800000 ms), a
surgery date of yesterday midnight (2024-01-14T00:00:00Z,
1705190400000 ms) gives `recoveryDay = 2`, not the claimed 1, because
`Math.ceil` is applied to the wall-clock millisecond difference
(34 h / 24 h rounds up to 2); a surgery date equal to today's midnight
(1705276800000 ms) gives 1, not the claimed 0. -/
theorem c2_recovery_day_yesterday_counterexample :
    calculateRecoveryDay 1705312800000 (some 1705190400000) = 2 ∧
    calculateRecoveryDay 1705312800000 (some 1705190400000) ≠ 1 ∧
    calculateRecoveryDay 1705312800000 (some 1705276800000) = 1 ∧
    calculateRecoveryDay 1705312800000 (some 1705276800000) ≠ 0 := by
  refine ⟨by decide, by decide, by decide, by decide⟩

/-- C2 (amended): `recoveryDay` equals
`max(0, ceil((now − surgeryDate) in ms / 86400000))` over exact instants.
For a surgery date at yesterday's midnight the value read during today is
2 at any instant strictly after today's midnight and 1 only exactly at
midnight; for a surgery date at today's midnight it is 1 strictly after
midnight and 0 only exactly at midnight. -/
theorem c2_recovery_day_ceil_boundaries (mid t : Int) (h0 : 0 ≤ t) (h1 : t < msPerDay) :
    calculateRecoveryDay (mid + t) (some (mid - msPerDay)) = (if t = 0 then 1 else 2) ∧
    calculateRecoveryDay (mid + t) (some mid) = (if t = 0 then 0 else 1) := by
  constructor <;>
    · simp only [msPerDay] at h1
      simp only [calculateRecoveryDay, jsCeilDiv, msPerDay]
      split <;> omega

/-- Witness for C2's amended theorem at 10:00 into the day. -/
theorem c2_recovery_day_ceil_boundaries_witness :
    (0 : Int) ≤ 36000000 ∧ (36000000 : Int) < msPerDay ∧
    calculateRecoveryDay 1705312800000 (some 1705190400000) = 2 ∧
    calculateRecoveryDay 1705312800000 (some 1705276800000) = 1 := by
  obtain ⟨ha, hb⟩ :=
    c2_recovery_day_ceil_boundaries 1705276800000 36000000 (by decide) (by decide)
  norm_num [msPerDay] at ha hb
  exact ⟨by decide, by decide, ha, hb⟩

/-! ## Claim C5 -/

/-- C5, counterexample: an unexpired, correctly signed token for an
account deactivated by `deactivateUser` (`isActive = false`) is not
rejected — `authenticateToken` resolves the user by id only and proceeds
with the identity attached. -/
theorem c5_deactivated_user_passes_gate_counterexample :
    deactivateUserSvc [demoActiveUser] 1 = .ok [demoDeactivatedUser] ∧
    demoDeactivatedUser.isActive = false ∧
    authenticateToken [demoDeactivatedUser] "s3cret" 1000
        (some (jwtSign ⟨1, "ada@x.com"⟩ "s3cret" 0)) =
      .proceed ⟨1, "Ada", "Smith", "ada@x.com"⟩ := by
  refine ⟨rfl, rfl, by decide⟩

/-- C5 (amended): for a verified token the gate re-resolves the user from
the store and rejects with 401 `"User not found"` exactly when the
account has been deleted (no longer resolvable); an account that merely
has `isActive = false` still resolves, so the request proceeds with the
identity attached. -/
theorem c5_gate_rejects_deleted_only (store : List StoredUser) (secret : String)
    (nowMs : Int) (t : JwtToken) (claims : JwtClaims)
    (hv : jwtVerify t secret nowMs = .ok claims) :
    (store.find? (fun u => u.uid == claims.userId) = none →
      authenticateToken store secret nowMs (some t) = .unauthorized "User not found") ∧
    (∀ u, store.find? (fun v => v.uid == claims.userId) = some u →
      authenticateToken store secret nowMs (some t) =
        .proceed ⟨u.uid, u.firstName, u.lastName, u.email⟩) := by
  constructor
  · intro hn
    simp [authenticateToken, hv, hn]
  · intro u hu
    simp [authenticateToken, hv, hu]

/-- Witness for C5's amended theorem: deleted account rejected, and the
deactivated fixture still passing. -/
theorem c5_gate_rejects_deleted_only_witness :
    jwtVerify (jwtSign ⟨1, "ada@x.com"⟩ "s3cret" 0) "s3cret" 1000 =
      .ok ⟨1, "ada@x.com"⟩ ∧
    authenticateToken [] "s3cret" 1000 (some (jwtSign ⟨1, "ada@x.com"⟩ "s3cret" 0)) =
      .unauthorized "User not found" := by
  have h := c5_gate_rejects_deleted_only [] "s3cret" 1000
    (jwtSign ⟨1, "ada@x.com"⟩ "s3cret" 0) ⟨1, "ada@x.com"⟩ rfl
  exact ⟨rfl, h.1 rfl⟩

/-! ## List lemmas for the keyed stores -/

/-- `updateFirst` preserves every count whose predicate the update
function preserves. -/
theorem countP_updateFirst {α : Type} (q p : α → Bool) (f : α → α)
    (hq : ∀ x, q (f x) = q x) (l : List α) :
    (updateFirst p f l).countP q = l.countP q := by
  induction l with
  | nil => rfl
  | cons x xs ih =>
    by_cases h : p x = true
    · simp [updateFirst, h, List.countP_cons, hq]
    · simp only [Bool.not_eq_true] at h
      simp [updateFirst, h, List.countP_cons, ih]

/-- In a list with at most one match of `p`, every matching member of
`updateFirst p f l` satisfies any property guaranteed by `f`. -/
theorem updateFirst_match_spec {α : Type} (p : α → Bool) (f : α → α) (P : α → Prop)
    (hf : ∀ x, P (f x)) :
    ∀ l : List α, l.countP p ≤ 1 → ∀ r ∈ updateFirst p f l, p r = true → P r := by
  intro l
  induction l with
  | nil => intro _ r hr; simp [updateFirst] at hr
  | cons x xs ih =>
    intro hcount r hr hpr
    by_cases hx : p x = true
    · simp only [updateFirst, if_pos hx, List.mem_cons] at hr
      rcases hr with hr | hr
      · rw [hr]; exact hf x
      · exfalso
        have h0 : xs.countP p = 0 := by
          rw [List.countP_cons, if_pos hx] at hcount
          omega
        have := List.countP_eq_zero.mp h0 r hr
        exact this hpr
    · simp only [Bool.not_eq_true] at hx
      simp only [updateFirst, hx, Bool.false_eq_true, if_false, List.mem_cons] at hr
      rcases hr with hr | hr
      · rw [hr] at hpr; rw [hpr] at hx; cases hx
      · have hcount' : xs.countP p ≤ 1 := by
          rw [List.countP_cons, hx] at hcount
          omega
        exact ih hcount' r hr hpr

/-- A list whose `any` is false has zero matches. -/
theorem countP_eq_zero_of_any_eq_false {α : Type} (p : α → Bool) (l : List α)
    (h : l.any p = false) : l.countP p = 0 := by
  rw [List.countP_eq_zero]
  intro x hx
  have := List.any_eq_false.mp h x hx
  simpa using this

/-- The freshly inserted progress record matches its own key. -/
theorem progressKeyMatch_self (uid sid iid : String) (c : Bool) (n : String) (t : Int) :
    progressKeyMatch uid sid iid ⟨uid, sid, iid, c, n, t⟩ = true := by
  simp [progressKeyMatch]

/-- An upsert leaves exactly one record for its key when the unique-index
invariant held before. -/
theorem countP_upsertProgress (store : List ProgressRecord) (uid sid iid : String)
    (c : Bool) (n : Option String) (t : Int)
    (hinv : store.countP (progressKeyMatch uid sid iid) ≤ 1) :
    (upsertProgress store uid sid iid c n t).countP (progressKeyMatch uid sid iid) = 1 := by
  by_cases h : store.any (progressKeyMatch uid sid iid) = true
  · have hpos : 0 < store.countP (progressKeyMatch uid sid iid) := by
      rw [List.countP_pos_iff]
      obtain ⟨x, hx, hpx⟩ := List.any_eq_true.mp h
      exact ⟨x, hx, hpx⟩
    rw [upsertProgress, if_pos h, countP_updateFirst]
    · omega
    · intro x; rfl
  · simp only [Bool.not_eq_true] at h
    have h0 : store.countP (progressKeyMatch uid sid iid) = 0 :=
      countP_eq_zero_of_any_eq_false _ _ h
    rw [upsertProgress, h]
    simp only [Bool.false_eq_true, if_false, List.countP_append, h0]
    simp [List.countP_cons, progressKeyMatch_self]

/-- An upsert preserves the unique-index invariant. -/
theorem noDupProgressKeys_upsertProgress (store : List ProgressRecord)
    (uid sid iid : String) (c : Bool) (n : Option String) (t : Int)
    (hinv : noDupProgressKeys store) :
    noDupProgressKeys (upsertProgress store uid sid iid c n t) := by
  intro uid' sid' iid'
  by_cases h : store.any (progressKeyMatch uid sid iid) = true
  · rw [upsertProgress, if_pos h, countP_updateFirst]
    · exact hinv uid' sid' iid'
    · intro x; rfl
  · simp only [Bool.not_eq_true] at h
    rw [upsertProgress, h]
    simp only [Bool.false_eq_true, if_false, List.countP_append]
    have h0 : store.countP (progressKeyMatch uid sid iid) = 0 :=
      countP_eq_zero_of_any_eq_false _ _ h
    by_cases hk : progressKeyMatch uid' sid' iid' (⟨uid, sid, iid, c, n.getD "", t⟩ :
        ProgressRecord) = true
    · have hkey : uid = uid' ∧ sid = sid' ∧ iid = iid' := by
        simp only [progressKeyMatch, Bool.and_eq_true, beq_iff_eq] at hk
        exact ⟨hk.1.1, hk.1.2, hk.2⟩
      obtain ⟨h1, h2, h3⟩ := hkey
      have h0' : store.countP (progressKeyMatch uid' sid' iid') = 0 := by
        rw [← h1, ← h2, ← h3]
        exact h0
      simp [List.countP_cons, h0', hk]
    · simp only [Bool.not_eq_true] at hk
      simp only [List.countP_cons, List.countP_nil, hk]
      have := hinv uid' sid' iid'
      simp only [Bool.false_eq_true, if_false]
      omega

/-- After an upsert a record with the key is present. -/
theorem any_upsertProgress (store : List ProgressRecord) (uid sid iid : String)
    (c : Bool) (n : Option String) (t : Int) :
    (upsertProgress store uid sid iid c n t).any (progressKeyMatch uid sid iid) = true := by
  by_cases h : store.any (progressKeyMatch uid sid iid) = true
  · obtain ⟨x, hx, hpx⟩ := List.any_eq_true.mp h
    have hcount : 0 < store.countP (progressKeyMatch uid sid iid) :=
      List.countP_pos_iff.mpr ⟨x, hx, hpx⟩
    rw [upsertProgress, if_pos h]
    rw [List.any_eq_true]
    have hc : 0 < (updateFirst (progressKeyMatch uid sid iid)
        (fun r => { r with completed := c, notes := n.getD r.notes, updatedAtMs := t })
        store).countP (progressKeyMatch uid sid iid) := by
      rw [countP_updateFirst]
      · exact hcount
      · intro y; rfl
    exact List.countP_pos_iff.mp hc
  · simp only [Bool.not_eq_true] at h
    rw [upsertProgress, h]
    simp only [Bool.false_eq_true, if_false, List.any_append, List.any_cons]
    simp [progressKeyMatch_self]

/-- Every key-matching record left by an upsert carries the upsert's
`completed` value, and its `notes` when the call provided notes. -/
theorem upsertProgress_values (store : List ProgressRecord) (uid sid iid : String)
    (c : Bool) (n : String) (t : Int)
    (hinv : store.countP (progressKeyMatch uid sid iid) ≤ 1) :
    ∀ r ∈ upsertProgress store uid sid iid c (some n) t,
      progressKeyMatch uid sid iid r = true → r.completed = c ∧ r.notes = n := by
  intro r hr hpr
  by_cases h : store.any (progressKeyMatch uid sid iid) = true
  · rw [upsertProgress, if_pos h] at hr
    exact updateFirst_match_spec (progressKeyMatch uid sid iid)
      (fun x => { x with completed := c, notes := (some n).getD x.notes, updatedAtMs := t })
      (fun x => x.completed = c ∧ x.notes = n)
      (fun x => ⟨rfl, rfl⟩) store hinv r hr hpr
  · simp only [Bool.not_eq_true] at h
    rw [upsertProgress, h] at hr
    simp only [Bool.false_eq_true, if_false, List.mem_append, List.mem_singleton] at hr
    rcases hr with hr | hr
    · exfalso
      have := List.any_eq_true.mpr ⟨r, hr, hpr⟩
      rw [h] at this
      cases this
    · rw [hr]
      exact ⟨rfl, rfl⟩

/-! ## Claim C3 -/

/-- C3: calling the progress upsert twice with the same
(userId, sectionId, itemId) key and different `completed` values leaves
the unique-index invariant intact at every step, leaves exactly one
stored record for the triple, and that record carries the second call's
`completed` and `notes`. -/
theorem c3_progress_upsert_last_write_wins (store : List ProgressRecord)
    (hinv : noDupProgressKeys store) (uid sid iid : String)
    (c₁ c₂ : Bool) (n₁ n₂ : String) (t₁ t₂ : Int) (hne : c₁ ≠ c₂) :
    noDupProgressKeys (upsertProgress store uid sid iid c₁ (some n₁) t₁) ∧
    noDupProgressKeys
      (upsertProgress (upsertProgress store uid sid iid c₁ (some n₁) t₁)
        uid sid iid c₂ (some n₂) t₂) ∧
    (upsertProgress (upsertProgress store uid sid iid c₁ (some n₁) t₁)
        uid sid iid c₂ (some n₂) t₂).countP (progressKeyMatch uid sid iid) = 1 ∧
    ∀ r ∈ upsertProgress (upsertProgress store uid sid iid c₁ (some n₁) t₁)
        uid sid iid c₂ (some n₂) t₂,
      progressKeyMatch uid sid iid r = true → r.completed = c₂ ∧ r.notes = n₂ := by
  have h1 : noDupProgressKeys (upsertProgress store uid sid iid c₁ (some n₁) t₁) :=
    noDupProgressKeys_upsertProgress store uid sid iid c₁ (some n₁) t₁ hinv
  refine ⟨h1, ?_, ?_, ?_⟩
  · exact noDupProgressKeys_upsertProgress _ uid sid iid c₂ (some n₂) t₂ h1
  · exact countP_upsertProgress _ uid sid iid c₂ (some n₂) t₂ (h1 uid sid iid)
  · exact upsertProgress_values _ uid sid iid c₂ n₂ t₂ (h1 uid sid iid)

/-- Witness for C3 starting from the empty store. -/
theorem c3_progress_upsert_last_write_wins_witness :
    (upsertProgress (upsertProgress [] "u" "sec" "item" true (some "a") 1)
        "u" "sec" "item" false (some "b") 2).countP
      (progressKeyMatch "u" "sec" "item") = 1 ∧
    (upsertProgress (upsertProgress [] "u" "sec" "item" true (some "a") 1)
        "u" "sec" "item" false (some "b") 2) =
      [⟨"u", "sec", "item", false, "b", 2⟩] := by
  have h := c3_progress_upsert_last_write_wins []
    (by intro uid sid iid; simp) "u" "sec" "item" true false "a" "b" 1 2 (by decide)
  exact ⟨h.2.2.1, by decide⟩

/-! ## Claim C4 -/

/-- C4: for an entry owned by user `ua`, any other user `ub` attempting
an update or delete by the entry's id gets a 404 (NotFound, not
Forbidden) with no entry data in the response, and the store is
unchanged — the owner-scoped filter `{ _id, userId }` never matches. -/
theorem c4_cross_user_update_delete_not_found (store : List SymptomEntryDoc)
    (e : SymptomEntryDoc) (ua ub : String) (p : EntryPatch)
    (hids : (store.map (fun x => x.id)).Nodup)
    (he : e ∈ store) (hown : e.userId = ua) (hne : ub ≠ ua) :
    ((updateSymptomEntryController store ub e.id p).1.status = 404 ∧
      (updateSymptomEntryController store ub e.id p).1.data = none ∧
      (updateSymptomEntryController store ub e.id p).2 = store) ∧
    ((deleteSymptomEntryController store ub e.id).1.status = 404 ∧
      (deleteSymptomEntryController store ub e.id).1.data = none ∧
      (deleteSymptomEntryController store ub e.id).2 = store) := by
  have hfind : store.find? (fun x => x.id == e.id && x.userId == ub) = none := by
    rw [List.find?_eq_none]
    intro x hx
    simp only [Bool.and_eq_true, beq_iff_eq, not_and]
    intro hid hub
    have hxe : x = e := List.inj_on_of_nodup_map hids hx he hid
    rw [hxe, hown] at hub
    exact hne hub.symm
  constructor
  · by_cases hv : isValidObjectId e.id = true
    · simp [updateSymptomEntryController, updateEntrySvc, hv, hfind]
    · simp only [Bool.not_eq_true] at hv
      simp [updateSymptomEntryController, updateEntrySvc, hv]
  · by_cases hv : isValidObjectId e.id = true
    · simp [deleteSymptomEntryController, deleteEntrySvc, hv, hfind]
    · simp only [Bool.not_eq_true] at hv
      simp [deleteSymptomEntryController, deleteEntrySvc, hv]

/-- Witness for C4: user `"u2"` attacking `"u1"`'s stored entry. -/
theorem c4_cross_user_update_delete_not_found_witness :
    ((updateSymptomEntryController demoSymptomStore "u2" demoEntry.id
        ⟨none, some 9, none, none, none⟩).1.status = 404 ∧
      (updateSymptomEntryController demoSymptomStore "u2" demoEntry.id
        ⟨none, some 9, none, none, none⟩).1.data = none ∧
      (updateSymptomEntryController demoSymptomStore "u2" demoEntry.id
        ⟨none, some 9, none, none, none⟩).2 = demoSymptomStore) ∧
    ((deleteSymptomEntryController demoSymptomStore "u2" demoEntry.id).1.status = 404 ∧
      (deleteSymptomEntryController demoSymptomStore "u2" demoEntry.id).1.data = none ∧
      (deleteSymptomEntryController demoSymptomStore "u2" demoEntry.id).2 =
        demoSymptomStore) :=
  c4_cross_user_update_delete_not_found demoSymptomStore demoEntry "u1" "u2"
    ⟨none, some 9, none, none, none⟩ (by decide) (by decide) rfl (by decide)

/-! ## Inversion lemmas for the signup flow -/

/-- What a successful registration validation sanitises to. -/
theorem validateRegistration_sanitized_eq (data : RegInput) (s : RegInput)
    (h : (validateRegistration data).sanitized = some s) :
    s = ⟨jsTrim data.firstName, jsTrim data.lastName, normalizeEmail data.email,
      data.password⟩ := by
  simp only [validateRegistration] at h
  split at h
  · exact (Option.some.inj h).symm
  · cases h

/-- A valid registration has its sanitised data present. -/
theorem validateRegistration_sanitized_of_valid (data : RegInput)
    (h : (validateRegistration data).isValid = true) :
    (validateRegistration data).sanitized =
      some ⟨jsTrim data.firstName, jsTrim data.lastName, normalizeEmail data.email,
        data.password⟩ := by
  simp only [validateRegistration] at h ⊢
  rw [if_pos h]

/-- What a successful `save()` of a new user stores. -/
theorem saveNewUser_ok_inversion (nextId : Nat) (fn ln em pw : String) (u : StoredUser)
    (h : saveNewUser nextId fn ln em pw = .ok u) :
    u = ⟨nextId, jsTrim fn, jsTrim ln, normalizeEmail em, bcryptHash pw, none, true⟩ := by
  simp only [saveNewUser] at h
  split at h
  · exact (Except.ok.inj h).symm
  · cases h

/-- What a successful `authService.register` guarantees: no previous user
with the email, and the new collection is the old one plus one freshly
saved user document. -/
theorem registerSvc_ok_inversion (store : List StoredUser) (nextId : Nat)
    (secret : String) (nowMs : Int) (d : RegInput) (au : AuthUser) (tok : JwtToken)
    (store' : List StoredUser)
    (h : registerSvc store nextId secret nowMs d = .ok (au, tok, store')) :
    store.any (fun u => u.email == d.email) = false ∧
    ∃ u : StoredUser,
      store' = store ++ [u] ∧
      u = ⟨nextId, jsTrim d.firstName, jsTrim d.lastName, normalizeEmail d.email,
        bcryptHash d.password, none, true⟩ ∧
      au = ⟨u.uid, u.email, u.firstName, u.lastName⟩ := by
  simp only [registerSvc] at h
  split at h
  · cases h
  · rename_i hany
    constructor
    · simpa using hany
    · split at h
      · cases h
      · rename_i u hsave
        have hinj := Except.ok.inj h
        have hau : au = ⟨u.uid, u.email, u.firstName, u.lastName⟩ :=
          (congrArg Prod.fst hinj).symm
        have hstore : store' = store ++ [u] :=
          (congrArg Prod.snd (congrArg Prod.snd hinj)).symm
        exact ⟨u, hstore, saveNewUser_ok_inversion nextId _ _ _ _ u hsave, hau⟩

/-- What a 201 from the signup controller guarantees: validation passed,
exactly one user was appended, its stored surgery date is null, its
stored password is the bcrypt hash of the submitted password, its email
is the sanitised request email, and the response echoes the raw surgery
date with `recoveryDay: 0`. -/
theorem signup_201_inversion (store : List StoredUser) (nextId : Nat) (secret : String)
    (nowMs : Int) (body : SignupBody) (r : AuthHttpResponse) (store' : List StoredUser)
    (h : signupController store nextId secret nowMs body = (r, store'))
    (h2 : r.status = 201) :
    ∃ u : StoredUser,
      store' = store ++ [u] ∧
      u.email = normalizeEmail body.email ∧
      u.surgeryDate = none ∧
      u.password = bcryptHash body.password ∧
      r.user = some ⟨u.uid, u.firstName, u.lastName, u.email,
        echoSurgeryDate body.surgeryDate, 0⟩ := by
  simp only [signupController] at h
  rw [Prod.mk.injEq] at h
  split at h
  · obtain ⟨hr, _⟩ := h
    rw [← hr] at h2
    simp at h2
  · rename_i s hsan
    have hs := validateRegistration_sanitized_eq _ _ hsan
    split at h
    · split at h
      · obtain ⟨hr, _⟩ := h
        rw [← hr] at h2
        simp at h2
      · obtain ⟨hr, _⟩ := h
        rw [← hr] at h2
        simp at h2
    · rename_i au tok store₂ hreg
      obtain ⟨hr, hst⟩ := h
      obtain ⟨hany, u, hstore₂, hu, hau⟩ :=
        registerSvc_ok_inversion store nextId secret nowMs s au tok store₂ hreg
      refine ⟨u, ?_, ?_, ?_, ?_, ?_⟩
      · rw [← hst, hstore₂]
      · rw [hu, hs]
        exact normalizeEmail_idem body.email
      · rw [hu]
      · rw [hu, hs]
      · rw [← hr, hau]

/-! ## Claim C6 -/

/-- C6: after a registration that answered 201, a second registration
whose email equals the first's up to letter case (after trimming) and
that passes input validation answers 409 Conflict with the
duplicate-email error, and the user collection — including the first
user's record — is unchanged. -/
theorem c6_duplicate_email_conflict (store : List StoredUser) (n₁ n₂ : Nat)
    (secret : String) (t₁ t₂ : Int) (b₁ b₂ : SignupBody) (r₁ : AuthHttpResponse)
    (store₁ : List StoredUser)
    (h1 : signupController store n₁ secret t₁ b₁ = (r₁, store₁))
    (h2 : r₁.status = 201)
    (hv : (validateRegistration ⟨b₂.firstName, b₂.lastName, b₂.email, b₂.password⟩).isValid
      = true)
    (he : normalizeEmail b₁.email = normalizeEmail b₂.email) :
    signupController store₁ n₂ secret t₂ b₂ =
      (⟨409, false, some "Registration failed", none,
        [⟨"Email already in use", "email"⟩], none, none⟩, store₁) := by
  obtain ⟨u, hstore₁, huemail, _, _, _⟩ :=
    signup_201_inversion store n₁ secret t₁ b₁ r₁ store₁ h1 h2
  have hsan := validateRegistration_sanitized_of_valid
    ⟨b₂.firstName, b₂.lastName, b₂.email, b₂.password⟩ hv
  have hany : store₁.any (fun v => v.email == normalizeEmail b₂.email) = true := by
    rw [List.any_eq_true]
    refine ⟨u, ?_, ?_⟩
    · rw [hstore₁]
      simp
    · rw [huemail, ← he]
      simp
  have hincl : strIncludes dupEmailMsg "already exists" = true := by decide
  simp only [signupController, hsan, registerSvc, hany, if_pos, hincl, if_true]

/-- Witness for C6: a concrete pair of signups whose emails differ only
in case and surrounding whitespace. -/
theorem c6_duplicate_email_conflict_witness :
    signupController
        (signupController [] 1 "s" 0 ⟨"Sarah", "Johnson", "Sarah@X.com", "Passw0rd1", none⟩).2
        2 "s" 7 ⟨"Other", "Person", " SARAH@x.com ", "Passw0rd2", none⟩ =
      (⟨409, false, some "Registration failed", none,
        [⟨"Email already in use", "email"⟩], none, none⟩,
       (signupController [] 1 "s" 0 ⟨"Sarah", "Johnson", "Sarah@X.com", "Passw0rd1", none⟩).2) := by
  have h := c6_duplicate_email_conflict [] 1 2 "s" 0 7
    ⟨"Sarah", "Johnson", "Sarah@X.com", "Passw0rd1", none⟩
    ⟨"Other", "Person", " SARAH@x.com ", "Passw0rd2", none⟩
    (signupController [] 1 "s" 0 ⟨"Sarah", "Johnson", "Sarah@X.com", "Passw0rd1", none⟩).1
    (signupController [] 1 "s" 0 ⟨"Sarah", "Johnson", "Sarah@X.com", "Passw0rd1", none⟩).2
    rfl (by decide) (by decide) (by decide)
  exact h

/-! ## Claim C7 -/

/-- A valid login validation sanitises to the normalised email and the
raw password. -/
theorem validateLogin_sanitized_of_valid (data : LoginInput)
    (h : (validateLogin data).isValid = true) :
    (validateLogin data).sanitized = some ⟨normalizeEmail data.email, data.password⟩ := by
  simp only [validateLogin] at h ⊢
  rw [if_pos h]

/-- C7: `login` succeeds exactly when the spec's `verifyCredentials`
succeeds against the stored hash; and whenever the service fails — for a
wrong password as for a nonexistent email — the signin controller
produces one and the same fixed InvalidCredentials response (status 400,
error `"Authentication failed"`, message `"Invalid email or password"`),
indistinguishable to the caller. -/
theorem c7_login_iff_verify_and_uniform_failure (store : List StoredUser)
    (secret : String) (nowMs : Int) (body : LoginInput) :
    (∀ email password : String,
      (loginSvc store secret nowMs email password).isOk = true ↔
        verifyCredentials store email password = true) ∧
    ((validateLogin body).isValid = true →
      (loginSvc store secret nowMs (normalizeEmail body.email) body.password).isOk = false →
      signinController store secret nowMs body = invalidCredentialsResponse) := by
  constructor
  · intro email password
    simp only [loginSvc, verifyCredentials]
    cases hf : store.find? (fun u => u.email == email) with
    | none => simp [Except.isOk, Except.toBool]
    | some u =>
      by_cases hc : bcryptCompare password u.password = true
      · simp [hc, Except.isOk, Except.toBool]
      · simp only [Bool.not_eq_true] at hc
        simp [hc, Except.isOk, Except.toBool]
  · intro hv hfail
    have hsan := validateLogin_sanitized_of_valid body hv
    simp only [signinController, hsan]
    cases hl : loginSvc store secret nowMs (normalizeEmail body.email) body.password with
    | error msg => simp
    | ok res =>
      rw [hl] at hfail
      simp [Except.isOk, Except.toBool] at hfail

/-- Witness for C7: the correct password logs in; a wrong password and a
nonexistent email both produce the identical fixed failure response. -/
theorem c7_login_iff_verify_and_uniform_failure_witness :
    (loginSvc [demoActiveUser] "s" 0 "ada@x.com" "Passw0rd1").isOk = true ∧
    signinController [demoActiveUser] "s" 0 ⟨"ada@x.com", "WrongPass1"⟩ =
      invalidCredentialsResponse ∧
    signinController [demoActiveUser] "s" 0 ⟨"ghost@x.com", "Passw0rd1"⟩ =
      invalidCredentialsResponse := by
  have h1 := c7_login_iff_verify_and_uniform_failure [demoActiveUser] "s" 0
    ⟨"ada@x.com", "WrongPass1"⟩
  have h2 := c7_login_iff_verify_and_uniform_failure [demoActiveUser] "s" 0
    ⟨"ghost@x.com", "Passw0rd1"⟩
  refine ⟨(h1.1 "ada@x.com" "Passw0rd1").mpr (by decide), ?_, ?_⟩
  · exact h1.2 (by decide) (by decide)
  · exact h2.2 (by decide) (by decide)

/-! ## Claim C8 -/

/-- C8: creating a symptom entry succeeds (201, entry appended) for any
`painLevel` within the inclusive bounds 0–10, and fails schema validation
(400, nothing stored) for any integer outside them — in particular 11. -/
theorem c8_pain_level_bounds (store : List SymptomEntryDoc) (freshId : String)
    (nowMs : Int) (userId : String) (body : TrackerBody)
    (hu : userId ≠ "") (hd : body.date ≠ "") :
    (0 ≤ body.painLevel ∧ body.painLevel ≤ 10 →
      (createSymptomEntryController store freshId nowMs userId body).1.status = 201 ∧
      (createSymptomEntryController store freshId nowMs userId body).2 =
        store ++ [⟨freshId, userId, body.date, body.painLevel, body.location.getD "",
          body.description.getD "", body.medications.getD "", nowMs⟩]) ∧
    (¬(0 ≤ body.painLevel ∧ body.painLevel ≤ 10) →
      (createSymptomEntryController store freshId nowMs userId body).1.status = 400 ∧
      (createSymptomEntryController store freshId nowMs userId body).2 = store) := by
  constructor
  · intro hin
    simp [createSymptomEntryController, createEntrySvc, symptomSaveOk, hu, hd,
      hin.1, hin.2]
  · intro hout
    simp [createSymptomEntryController, createEntrySvc, symptomSaveOk, hu, hd, hout]

/-- Witness for C8 at the boundary pain levels 0, 10 and 11. -/
theorem c8_pain_level_bounds_witness :
    (createSymptomEntryController [] "65a0000000000000000000a1" 5 "u1"
        ⟨"2024-01-15", 0, none, none, none⟩).1.status = 201 ∧
    (createSymptomEntryController [] "65a0000000000000000000a1" 5 "u1"
        ⟨"2024-01-15", 10, none, none, none⟩).1.status = 201 ∧
    (createSymptomEntryController [] "65a0000000000000000000a1" 5 "u1"
        ⟨"2024-01-15", 11, none, none, none⟩).1.status = 400 ∧
    (createSymptomEntryController [] "65a0000000000000000000a1" 5 "u1"
        ⟨"2024-01-15", 11, none, none, none⟩).2 = [] := by
  have h0 := c8_pain_level_bounds [] "65a0000000000000000000a1" 5 "u1"
    ⟨"2024-01-15", 0, none, none, none⟩ (by decide) (by decide)
  have h10 := c8_pain_level_bounds [] "65a0000000000000000000a1" 5 "u1"
    ⟨"2024-01-15", 10, none, none, none⟩ (by decide) (by decide)
  have h11 := c8_pain_level_bounds [] "65a0000000000000000000a1" 5 "u1"
    ⟨"2024-01-15", 11, none, none, none⟩ (by decide) (by decide)
  exact ⟨(h0.1 (by constructor <;> decide)).1, (h10.1 (by constructor <;> decide)).1,
    (h11.2 (by intro hc; exact absurd hc.2 (by decide))).1,
    (h11.2 (by intro hc; exact absurd hc.2 (by decide))).2⟩

/-! ## Claim C9 -/

/-- The bcrypt hash of a password is never the password itself (it is
seven characters longer). -/
theorem bcryptHash_ne_plaintext (p : String) : bcryptHash p ≠ p := by
  intro h
  have hlen := congrArg String.length h
  rw [bcryptHash, String.length_append] at hlen
  have h7 : "$2a$10$".length = 7 := rfl
  omega

/-- C9: after a successful registration the stored user's password field
holds the bcrypt hash and never the submitted plaintext; user reads via
`select('-password')` carry no password data at all (the projection is
independent of the stored password); and after a successful password
change the stored field is the hash of the new password, never its
plaintext. -/
theorem c9_password_never_stored_plaintext (store : List StoredUser) (nextId : Nat)
    (secret : String) (nowMs : Int) (d : RegInput) (au : AuthUser) (tok : JwtToken)
    (store' : List StoredUser)
    (hreg : registerSvc store nextId secret nowMs d = .ok (au, tok, store')) :
    (∃ u : StoredUser, store' = store ++ [u] ∧
      u.password = bcryptHash d.password ∧ u.password ≠ d.password) ∧
    (∀ p : String, bcryptHash p ≠ p) ∧
    (∀ (u : StoredUser) (x : String), toSafeUser { u with password := x } = toSafeUser u) ∧
    (∀ (s₂ : List StoredUser) (uid : Nat) (cur new : String) (s₃ : List StoredUser),
      changePasswordSvc s₂ uid cur new = .ok s₃ →
      ∀ v ∈ s₃, v.uid = uid → v.password = bcryptHash new ∧ v.password ≠ new) := by
  refine ⟨?_, bcryptHash_ne_plaintext, fun u x => rfl, ?_⟩
  · obtain ⟨_, u, hstore, hu, _⟩ :=
      registerSvc_ok_inversion store nextId secret nowMs d au tok store' hreg
    refine ⟨u, hstore, ?_, ?_⟩
    · rw [hu]
    · rw [hu]
      exact bcryptHash_ne_plaintext d.password
  · intro s₂ uid cur new s₃ hch v hv hvuid
    simp only [changePasswordSvc] at hch
    split at hch
    · cases hch
    · split at hch
      · split at hch
        · have hs₃ := Except.ok.inj hch
          rw [← hs₃] at hv
          obtain ⟨x, hx, hxv⟩ := List.mem_map.mp hv
          by_cases hxid : (x.uid == uid) = true
          · rw [if_pos hxid] at hxv
            rw [← hxv]
            exact ⟨rfl, bcryptHash_ne_plaintext new⟩
          · rw [if_neg hxid] at hxv
            rw [← hxv] at hvuid
            simp [hvuid] at hxid
        · cases hch
      · cases hch

/-- Witness for C9 on a concrete registration. -/
theorem c9_password_never_stored_plaintext_witness :
    registerSvc [] 1 "s" 0 ⟨"Sarah", "Johnson", "sarah@x.com", "Passw0rd1"⟩ =
      .ok (⟨1, "sarah@x.com", "Sarah", "Johnson"⟩, jwtSign ⟨1, "sarah@x.com"⟩ "s" 0,
        [⟨1, "Sarah", "Johnson", "sarah@x.com", bcryptHash "Passw0rd1", none, true⟩]) ∧
    bcryptHash "Passw0rd1" ≠ "Passw0rd1" := by
  have h := c9_password_never_stored_plaintext [] 1 "s" 0
    ⟨"Sarah", "Johnson", "sarah@x.com", "Passw0rd1"⟩
    ⟨1, "sarah@x.com", "Sarah", "Johnson"⟩ (jwtSign ⟨1, "sarah@x.com"⟩ "s" 0)
    [⟨1, "Sarah", "Johnson", "sarah@x.com", bcryptHash "Passw0rd1", none, true⟩] rfl
  exact ⟨rfl, h.2.1 "Passw0rd1"⟩

/-! ## Claim C10 -/

/-- The store left by a successful surgery-date update is the mapped
store, whatever the refetched view is. -/
theorem snd_updateSurgeryDateController_parsed (store : List StoredUser) (uid : Nat)
    (nowMs d : Int) (u₀ : StoredUser) (hd : ¬nowMs < d)
    (hfind : store.find? (fun v => v.uid == uid) = some u₀) :
    (updateSurgeryDateController store uid nowMs (.parsed d)).2 =
      store.map (fun v => if v.uid == uid then { v with surgeryDate := some d } else v) := by
  simp only [updateSurgeryDateController, updateUserSurgeryDate, hfind]
  rw [if_neg hd]
  cases hm : (store.map
      (fun v => if v.uid == uid then { v with surgeryDate := some d } else v)).find?
      (fun u => u.uid == uid) with
  | none => simp [hm]
  | some u₁ => simp [hm]

/-- C10: a `surgeryDate` supplied at signup is echoed in the 201 response
with `recoveryDay: 0` but never persisted — the stored user keeps
`surgeryDate = null`; the signin response always reports
`surgeryDate: null` and `recoveryDay: 0` whatever the store holds; and a
`PATCH /auth/surgery-date` with a valid, non-future date is what persists
the date. -/
theorem c10_surgery_date_not_persisted (store : List StoredUser) (nextId : Nat)
    (secret : String) (t₁ t₂ t₃ : Int) (body : SignupBody) (lb : LoginInput)
    (r₁ : AuthHttpResponse) (store₁ : List StoredUser) (uid : Nat) (d : Int)
    (u₀ : StoredUser)
    (h1 : signupController store nextId secret t₁ body = (r₁, store₁))
    (h2 : r₁.status = 201) (hd : d ≤ t₃)
    (hfind : store₁.find? (fun v => v.uid == uid) = some u₀) :
    (∃ v : ApiUserView, r₁.user = some v ∧
      v.surgeryDate = echoSurgeryDate body.surgeryDate ∧ v.recoveryDay = 0) ∧
    (∃ u : StoredUser, store₁ = store ++ [u] ∧ u.surgeryDate = none) ∧
    ((signinController store₁ secret t₂ lb).status = 200 →
      ∃ v : ApiUserView, (signinController store₁ secret t₂ lb).user = some v ∧
        v.surgeryDate = none ∧ v.recoveryDay = 0) ∧
    (∀ w ∈ (updateSurgeryDateController store₁ uid t₃ (.parsed d)).2,
      w.uid = uid → w.surgeryDate = some d) := by
  obtain ⟨u, hstore₁, _, husd, _, hruser⟩ :=
    signup_201_inversion store nextId secret t₁ body r₁ store₁ h1 h2
  refine ⟨⟨_, hruser, rfl, rfl⟩, ⟨u, hstore₁, husd⟩, ?_, ?_⟩
  · intro hst
    simp only [signinController] at hst ⊢
    cases hsan : (validateLogin lb).sanitized with
    | none =>
      rw [hsan] at hst
      simp at hst
    | some s =>
      simp only [hsan] at hst ⊢
      cases hok : loginSvc store₁ secret t₂ s.email s.password with
      | error m =>
        rw [hok] at hst
        simp [invalidCredentialsResponse] at hst
      | ok res =>
        obtain ⟨au, tok⟩ := res
        simp only [hok]
        exact ⟨_, rfl, rfl, rfl⟩
  · intro w hw hwuid
    rw [snd_updateSurgeryDateController_parsed store₁ uid t₃ d u₀ (by omega) hfind] at hw
    obtain ⟨x, hx, hxw⟩ := List.mem_map.mp hw
    by_cases hxid : (x.uid == uid) = true
    · rw [if_pos hxid] at hxw
      rw [← hxw]
    · rw [if_neg hxid] at hxw
      rw [← hxw] at hwuid
      simp [hwuid] at hxid

/-- Witness for C10: a concrete signup with a surgery date in the body,
followed by a signin and a surgery-date PATCH. -/
theorem c10_surgery_date_not_persisted_witness :
    (signupController [] 1 "s" 0
        ⟨"Sarah", "Johnson", "sarah@x.com", "Passw0rd1", some "2024-01-10"⟩).2 =
      [⟨1, "Sarah", "Johnson", "sarah@x.com", bcryptHash "Passw0rd1", none, true⟩] ∧
    (signupController [] 1 "s" 0
        ⟨"Sarah", "Johnson", "sarah@x.com", "Passw0rd1", some "2024-01-10"⟩).1.user =
      some ⟨1, "Sarah", "Johnson", "sarah@x.com", some "2024-01-10", 0⟩ ∧
    (signinController
        (signupController [] 1 "s" 0
          ⟨"Sarah", "Johnson", "sarah@x.com", "Passw0rd1", some "2024-01-10"⟩).2
        "s" 7 ⟨"sarah@x.com", "Passw0rd1"⟩).user =
      some ⟨1, "Sarah", "Johnson", "sarah@x.com", none, 0⟩ ∧
    (updateSurgeryDateController
        (signupController [] 1 "s" 0
          ⟨"Sarah", "Johnson", "sarah@x.com", "Passw0rd1", some "2024-01-10"⟩).2
        1 200 (.parsed 100)).2 =
      [⟨1, "Sarah", "Johnson", "sarah@x.com", bcryptHash "Passw0rd1", some 100, true⟩] := by
  have h := c10_surgery_date_not_persisted [] 1 "s" 0 7 200
    ⟨"Sarah", "Johnson", "sarah@x.com", "Passw0rd1", some "2024-01-10"⟩
    ⟨"sarah@x.com", "Passw0rd1"⟩
    (signupController [] 1 "s" 0
      ⟨"Sarah", "Johnson", "sarah@x.com", "Passw0rd1", some "2024-01-10"⟩).1
    (signupController [] 1 "s" 0
      ⟨"Sarah", "Johnson", "sarah@x.com", "Passw0rd1", some "2024-01-10"⟩).2
    1 100 ⟨1, "Sarah", "Johnson", "sarah@x.com", bcryptHash "Passw0rd1", none, true⟩
    rfl (by decide) (by decide) (by decide)
  exact ⟨by decide, by decide, by decide, by decide⟩

end MedMelanin
